import Mathlib

/-
Verification development for the water simulation in `main.py` (the `Water`
class): a 1-D height-field wave simulator (`Water.update`), a scripted drip
impulse (`Water.drip`), and the buoyancy coupling callback
(`Water.pre_solve`).

Modelling conventions:
* Python floats are modelled as real numbers (`ℝ`); a float `nan` arising
  from `0/0`, `mean` of an empty array, or `clip` of `nan` is modelled by
  `Option ℝ` with `none` standing for nan.
* numpy arrays are modelled as `List ℝ`.
* `np.convolve(a, v, 'same')` is the central slice, of length
  `max a.length v.length`, of the full discrete convolution, with
  out-of-range taps contributing zero; `convSame` below implements exactly
  that.
* Python's `round` (banker's rounding, half to even) is `pyRound`,
  Python's `int()` truncation toward zero is `pyTrunc`, and Python's slice
  index resolution (negative indices count from the end, then the result is
  clamped into `[0, len]`) is `pySliceIdx`.
-/

/-- Python `round` on a real value: nearest integer, halves to even. -/
noncomputable def pyRound (x : ℝ) : ℤ :=
  if x - ⌊x⌋ < 1 / 2 then ⌊x⌋
  else if 1 / 2 < x - ⌊x⌋ then ⌊x⌋ + 1
  else if Even ⌊x⌋ then ⌊x⌋ else ⌊x⌋ + 1

/-- Python `int()` on a real value: truncation toward zero. -/
noncomputable def pyTrunc (x : ℝ) : ℤ := if 0 ≤ x then ⌊x⌋ else ⌈x⌉

/-- Python slice-endpoint resolution for a sequence of length `n`:
a negative index counts from the end (and is then clamped below by `0`),
a nonnegative index is clamped above by `n`. -/
def pySliceIdx (n : ℕ) (i : ℤ) : ℕ :=
  if i < 0 then (i + n).toNat else min i.toNat n

/-- Python slicing `xs[a:b]` (step 1). -/
def sliceList (xs : List ℝ) (a b : ℤ) : List ℝ :=
  (xs.drop (pySliceIdx xs.length a)).take (pySliceIdx xs.length b - pySliceIdx xs.length a)

/-- Zero-padded element access used by same-mode convolution: indices
outside `[0, xs.length)` read as `0`. -/
def padGet (xs : List ℝ) (i : ℤ) : ℝ :=
  if 0 ≤ i then xs.getD i.toNat 0 else 0

/-- One output sample of `np.convolve (a, v, 'same')`: the full-convolution
sample at offset `(min a.length v.length - 1) / 2` past `i`. -/
def convAt (a v : List ℝ) (i : ℤ) : ℝ :=
  ∑ j ∈ Finset.range v.length,
    v.getD j 0 * padGet a (i + (((min a.length v.length - 1) / 2 : ℕ) : ℤ) - (j : ℤ))

/-- `np.convolve (a, v, 'same')`: same-mode discrete convolution, output
length `max a.length v.length`, out-of-range taps contributing zero. -/
def convSame (a v : List ℝ) : List ℝ :=
  (List.range (max a.length v.length)).map fun i : ℕ => convAt a v (i : ℤ)

/-- Axis-aligned bounding box of a pymunk shape (`bb.cache_bb()`). -/
structure BB where
  left : ℝ
  right : ℝ
  bottom : ℝ
  top : ℝ

/-- `bb.area()` of a pymunk bounding box. -/
def BB.area (bb : BB) : ℝ := (bb.right - bb.left) * (bb.top - bb.bottom)

/-- The state of a `Water` instance: the fields of `main.py`'s `Water`
object that the simulation reads or writes (`x1`, `x2`, surface height `y`,
`levels` and `velocities`).  The rendering-only members (`xs`, `bot_verts`,
the vertex list and the pymunk shape) are omitted. -/
structure Water where
  x1 : ℝ
  x2 : ℝ
  y : ℝ
  levels : List ℝ
  velocities : List ℝ

/-- `Water.VCONV = np.array([0.05, 0.3, -0.8, 0.3, 0.05])`. -/
noncomputable def Water.VCONV : List ℝ := [1/20, 3/10, -(4/5), 3/10, 1/20]

/-- `Water.LCONV = np.array([0.05, 0.9, 0.05])`. -/
noncomputable def Water.LCONV : List ℝ := [1/20, 9/10, 1/20]

/-- `Water.SUBDIV = 5`. -/
def Water.SUBDIV : ℤ := 5

/-- The sample count computed in `Water.__init__`:
`size = int(x2 - x1) * self.SUBDIV + 1`. -/
noncomputable def Water.size (x1 x2 : ℝ) : ℤ := pyTrunc (x2 - x1) * Water.SUBDIV + 1

/-- `Water.__init__(surf_y, x1, x2, bot_y)`: `levels` and `velocities` are
created as `np.zeros(size)`.  (`np.zeros` of a negative size raises; the
model takes `toNat`, and theorems about construction assume `x1 ≤ x2`.) -/
noncomputable def Water.init (surf_y x1 x2 bot_y : ℝ) : Water :=
  { x1 := x1
    x2 := x2
    y := surf_y
    levels := List.replicate (Water.size x1 x2).toNat 0
    velocities := List.replicate (Water.size x1 x2).toNat 0 }

/-- `Water.update(dt)`:
`velocities += np.convolve(levels, VCONV * (dt * 60), 'same')`, then
`velocities *= 0.5 ** dt`, then
`levels = np.convolve(levels, LCONV, 'same') + velocities * 10 * dt`.
Faithful to the source whenever `levels.length = velocities.length ≥ 5`
(for smaller arrays numpy's broadcasting raises instead; theorems carry
that hypothesis). -/
noncomputable def Water.update (w : Water) (dt : ℝ) : Water :=
  let v2 := (List.zipWith (fun x y => x + y) w.velocities
      (convSame w.levels (Water.VCONV.map (fun c => c * (dt * 60))))).map
      (fun x => x * (1 / 2 : ℝ) ^ dt)
  { w with
    levels := List.zipWith (fun x y => x + y) (convSame w.levels Water.LCONV)
      (v2.map (fun x => x * (10 * dt)))
    velocities := v2 }

/-- `Water.drip(self, _)`: `levels[-9] = -0.5; velocities[-9] = 0`.  The
argument is ignored by the source.  Python's `xs[-9]` is `xs[len(xs) - 9]`;
faithful whenever the arrays have length at least 9 (below that Python
raises `IndexError`; theorems carry that hypothesis). -/
noncomputable def Water.drip (w : Water) (x : ℝ) : Water :=
  { w with
    levels := w.levels.set (w.levels.length - 9) (-(1/2))
    velocities := w.velocities.set (w.velocities.length - 9) 0 }

/-- The raw left sample index computed in `Water.pre_solve`:
`a = round(bb.left - inst.x1) * inst.SUBDIV` (Python banker's `round`). -/
noncomputable def Water.aIdx (w : Water) (bb : BB) : ℤ :=
  pyRound (bb.left - w.x1) * Water.SUBDIV

/-- The raw right sample index computed in `Water.pre_solve`:
`b = round(bb.right - inst.x1) * inst.SUBDIV`. -/
noncomputable def Water.bIdx (w : Water) (bb : BB) : ℤ :=
  pyRound (bb.right - w.x1) * Water.SUBDIV

/-- `np.clip(x, 0, 1)` on a (non-nan) float. -/
noncomputable def clip01 (x : ℝ) : ℝ := min (max x 0) 1

/-- One sample of `np.clip((level - bb.bottom) / (bb.top - bb.bottom), 0, 1)`
under float semantics.  When `top = bottom` the float division yields
`+inf` (clipped to `1`) for `level > bottom`, `-inf` (clipped to `0`) for
`level < bottom`, and `nan` (here `none`) for `level = bottom`. -/
noncomputable def submSample (level bottom top : ℝ) : Option ℝ :=
  if top = bottom then
    if bottom < level then some 1
    else if level < bottom then some 0
    else none
  else some (clip01 ((level - bottom) / (top - bottom)))

/-- The per-sample absolute water levels read by `Water.pre_solve`:
`levels = inst.levels[a:b] + inst.y`. -/
noncomputable def Water.sampleLevels (w : Water) (bb : BB) : List ℝ :=
  (sliceList w.levels (w.aIdx bb) (w.bIdx bb)).map (fun h => h + w.y)

/-- `frac_immersed = float(np.mean(np.clip((levels - bb.bottom) / (bb.top -
bb.bottom), 0, 1)))` under float semantics: `np.mean` of an empty slice is
`nan` (`none`), and a `nan` sample (degenerate box with `level = bottom`)
makes the mean `nan`. -/
noncomputable def Water.fracImmersed (w : Water) (bb : BB) : Option ℝ :=
  if (w.sampleLevels bb).isEmpty then none
  else if ((w.sampleLevels bb).map (fun l => submSample l bb.bottom bb.top)).any
      (fun o => o.isNone) then none
  else some ((((w.sampleLevels bb).map (fun l => submSample l bb.bottom bb.top)).map
      (fun o => o.getD 0)).sum / (w.sampleLevels bb).length)

/-- The float comparison `frac_immersed < 1`: false when `frac_immersed`
is `nan` (`none`). -/
def fracLtOne (o : Option ℝ) : Prop :=
  match o with
  | none => False
  | some q => q < 1

/-- `BUOYANCY = Vec2d(0, 500)` and `WATER_DRAG = 20`: the force
`(BUOYANCY * bb.area() - body.velocity * WATER_DRAG) * frac_immersed`,
componentwise on the 2-vector `body.velocity = (vx, vy)`; `none` when
`frac_immersed` is `nan`. -/
noncomputable def Water.force (bb : BB) (vx vy : ℝ) (frac : Option ℝ) : Option (ℝ × ℝ) :=
  frac.map fun q => ((0 * bb.area - vx * 20) * q, (500 * bb.area - vy * 20) * q)

/-- `Water.pre_solve`: computes `a`, `b` and `frac_immersed`, and if
`frac_immersed < 1` (false for `nan`) rewrites
`velocities[a:b] = velocities[a:b] * f + vy * abs(vy) * 0.1 * (1 - f)`
with `f = 0.6 ** dt`.  Returns the updated water state together with the
force applied to the body (the body itself is external state).  `levels`
is never written. -/
noncomputable def Water.pre_solve (w : Water) (bb : BB) (vx vy dt : ℝ) :
    Water × Option (ℝ × ℝ) :=
  let frac := w.fracImmersed bb
  let fd := (3 / 5 : ℝ) ^ dt
  let s := pySliceIdx w.velocities.length (w.aIdx bb)
  let t := pySliceIdx w.velocities.length (w.bIdx bb)
  let w' :=
    match frac with
    | none => w
    | some q =>
      if q < 1 then
        { w with
          velocities := (List.range w.velocities.length).map fun i =>
            if s ≤ i ∧ i < t then
              w.velocities.getD i 0 * fd + vy * |vy| * (1/10) * (1 - fd)
            else w.velocities.getD i 0 }
      else w
  (w', Water.force bb vx vy frac)

/- ### Basic lemmas about list access in the embedding -/

theorem getD_range_map (K : ℕ) (g : ℕ → ℝ) (i : ℕ) (h : i < K) :
    ((List.range K).map g).getD i 0 = g i := by
  rw [List.getD_eq_getElem?_getD, List.getElem?_map, List.getElem?_range h, Option.map_some']
  rfl

theorem getD_zero_replicate (n i : ℕ) : (List.replicate n (0 : ℝ)).getD i 0 = 0 := by
  rw [List.getD_eq_getElem?_getD, List.getElem?_replicate]
  split <;> rfl

theorem getD_set_self (xs : List ℝ) (k : ℕ) (a : ℝ) (h : k < xs.length) :
    (xs.set k a).getD k 0 = a := by
  rw [List.getD_eq_getElem?_getD, List.getElem?_set, if_pos rfl, if_pos h]
  rfl

theorem getD_set_ne (xs : List ℝ) (k i : ℕ) (a : ℝ) (h : k ≠ i) :
    (xs.set k a).getD i 0 = xs.getD i 0 := by
  rw [List.getD_eq_getElem?_getD, List.getElem?_set, if_neg h, List.getD_eq_getElem?_getD]

theorem getD_map_mul (xs : List ℝ) (c : ℝ) (i : ℕ) :
    (xs.map (fun x => x * c)).getD i 0 = xs.getD i 0 * c := by
  rw [List.getD_eq_getElem?_getD, List.getElem?_map]
  cases hx : xs[i]? with
  | none => simp [hx, List.getD_eq_getElem?_getD]
  | some a => simp [hx, List.getD_eq_getElem?_getD]

theorem getD_zipWith_add (xs ys : List ℝ) (h : xs.length = ys.length) (i : ℕ) :
    (List.zipWith (fun x y => x + y) xs ys).getD i 0 = xs.getD i 0 + ys.getD i 0 := by
  rw [List.getD_eq_getElem?_getD, List.getElem?_zipWith]
  cases hx : xs[i]? with
  | none =>
    have hi : xs.length ≤ i := by
      by_contra hc
      exact absurd hx (by simp [List.getElem?_eq_getElem (lt_of_not_le hc)])
    have hy : ys[i]? = none := by
      rw [List.getElem?_eq_none_iff]; omega
    have hxa : xs.getD i 0 = 0 := by rw [List.getD_eq_getElem?_getD, hx]; rfl
    have hya : ys.getD i 0 = 0 := by rw [List.getD_eq_getElem?_getD, hy]; rfl
    rw [hy, hxa, hya]
    norm_num
  | some a =>
    have hi : i < xs.length := by
      by_contra hc
      rw [List.getElem?_eq_none_iff.2 (le_of_not_lt hc)] at hx
      exact Option.noConfusion hx
    have hxa : xs.getD i 0 = a := by rw [List.getD_eq_getElem?_getD, hx]; rfl
    have hy : ys[i]? = some (ys.getD i 0) := by
      rw [List.getD_eq_getElem?_getD, List.getElem?_eq_getElem (h ▸ hi)]
      rfl
    rw [hy, hxa]
    rfl

theorem padGet_natCast (xs : List ℝ) (i : ℕ) : padGet xs (i : ℤ) = xs.getD i 0 := by
  unfold padGet
  rw [if_pos (Int.natCast_nonneg i), Int.toNat_natCast]

theorem padGet_neg (xs : List ℝ) (i : ℤ) (h : i < 0) : padGet xs i = 0 := by
  unfold padGet
  rw [if_neg (not_le.2 h)]

theorem getD_eq_default_of_le (xs : List ℝ) (i : ℕ) (h : xs.length ≤ i) :
    xs.getD i 0 = 0 := by
  rw [List.getD_eq_getElem?_getD, List.getElem?_eq_none_iff.2 h]
  rfl

theorem padGet_of_length_le (xs : List ℝ) (i : ℤ) (h : (xs.length : ℤ) ≤ i) :
    padGet xs i = 0 := by
  unfold padGet
  split
  · exact getD_eq_default_of_le xs i.toNat (by omega)
  · rfl

theorem convSame_length (a v : List ℝ) :
    (convSame a v).length = max a.length v.length := by
  simp [convSame]

theorem convSame_getD (a v : List ℝ) (i : ℕ) (h : i < max a.length v.length) :
    (convSame a v).getD i 0 = convAt a v (i : ℤ) := by
  unfold convSame
  exact getD_range_map _ _ i h

/- ### C10 and C5: the drip impulse -/

/-- C10 (confirmed): `Water.drip` ignores its argument entirely; on arrays of
length at least 9 it writes height `-0.5` and velocity `0` at the fixed
index `sampleCount - 9` and changes no other element. -/
theorem c10_drip_fixed_index (w : Water) (x y : ℝ)
    (hl : 9 ≤ w.levels.length) (hv : 9 ≤ w.velocities.length) :
    w.drip x = w.drip y
    ∧ (w.drip x).levels.getD (w.levels.length - 9) 0 = -(1/2)
    ∧ (w.drip x).velocities.getD (w.velocities.length - 9) 0 = 0
    ∧ (∀ i, i ≠ w.levels.length - 9 →
        (w.drip x).levels.getD i 0 = w.levels.getD i 0)
    ∧ (∀ i, i ≠ w.velocities.length - 9 →
        (w.drip x).velocities.getD i 0 = w.velocities.getD i 0) := by
  refine ⟨rfl, ?_, ?_, ?_, ?_⟩
  · exact getD_set_self _ _ _ (by omega)
  · exact getD_set_self _ _ _ (by omega)
  · intro i hi
    exact getD_set_ne _ _ _ _ (fun h => hi h.symm)
  · intro i hi
    exact getD_set_ne _ _ _ _ (fun h => hi h.symm)

/-- Witness for C10 at a concrete 9-sample flat water state. -/
theorem c10_drip_fixed_index_witness :
    let w : Water := ⟨0, 0, 0, List.replicate 9 0, List.replicate 9 0⟩
    w.drip 1 = w.drip 2
    ∧ (w.drip 1).levels.getD (w.levels.length - 9) 0 = -(1/2)
    ∧ (w.drip 1).velocities.getD (w.velocities.length - 9) 0 = 0
    ∧ (∀ i, i ≠ w.levels.length - 9 →
        (w.drip 1).levels.getD i 0 = w.levels.getD i 0)
    ∧ (∀ i, i ≠ w.velocities.length - 9 →
        (w.drip 1).velocities.getD i 0 = w.velocities.getD i 0) :=
  c10_drip_fixed_index ⟨0, 0, 0, List.replicate 9 0, List.replicate 9 0⟩ 1 2
    (by simp) (by simp)

theorem water_init_span10_levels :
    (Water.init (13/2) 0 10 0).levels = List.replicate 51 0
    ∧ (Water.init (13/2) 0 10 0).velocities = List.replicate 51 0 := by
  have h : (Water.size 0 10).toNat = 51 := by
    have h10 : pyTrunc ((10 : ℝ) - 0) = 10 := by
      unfold pyTrunc
      rw [if_pos (by norm_num)]
      norm_num
    unfold Water.size Water.SUBDIV
    rw [h10]
    rfl
  unfold Water.init
  rw [h]
  exact ⟨rfl, rfl⟩

/-- C5 counterexample: on the flat 51-sample field, `drip` leaves sample 41
at `0` and instead writes `-0.5` at sample 42, contradicting the claim that
index 41 is set to `-0.5` and every other sample remains `0`. -/
theorem c5_counterexample :
    ((Water.init (13/2) 0 10 0).drip 0).levels.getD 41 0 = 0
    ∧ ((Water.init (13/2) 0 10 0).drip 0).levels.getD 42 0 = -(1/2) := by
  obtain ⟨hl, hv⟩ := water_init_span10_levels
  constructor
  · unfold Water.drip
    rw [hl]
    simp only [List.length_replicate]
    rw [getD_set_ne _ _ _ _ (by norm_num)]
    exact getD_zero_replicate 51 41
  · unfold Water.drip
    rw [hl]
    simp only [List.length_replicate]
    exact getD_set_self _ _ _ (by simp)

/-- C5 (amended): on the flat 51-sample field (span 10, subdivision 5),
`drip` sets exactly sample index `42` (`51 - 9`, Python's `levels[-9]`) to
height `-0.5` and its velocity to `0`; every other sample remains `0`. -/
theorem c5_amended_drip_index :
    ((Water.init (13/2) 0 10 0).drip 0).levels.getD 42 0 = -(1/2)
    ∧ ((Water.init (13/2) 0 10 0).drip 0).velocities.getD 42 0 = 0
    ∧ ∀ i, i ≠ 42 →
        ((Water.init (13/2) 0 10 0).drip 0).levels.getD i 0 = 0
        ∧ ((Water.init (13/2) 0 10 0).drip 0).velocities.getD i 0 = 0 := by
  obtain ⟨hl, hv⟩ := water_init_span10_levels
  refine ⟨?_, ?_, ?_⟩
  · unfold Water.drip
    rw [hl]
    simp only [List.length_replicate]
    exact getD_set_self _ _ _ (by simp)
  · unfold Water.drip
    rw [hv]
    simp only [Water.drip, hl, hv, List.length_replicate]
    exact getD_set_self _ _ _ (by simp)
  · intro i hi
    constructor
    · unfold Water.drip
      rw [hl]
      simp only [List.length_replicate]
      rw [getD_set_ne _ _ _ _ (by omega)]
      exact getD_zero_replicate 51 i
    · unfold Water.drip
      rw [hv]
      simp only [Water.drip, hl, hv, List.length_replicate]
      rw [getD_set_ne _ _ _ _ (by omega)]
      exact getD_zero_replicate 51 i

/-- Witness for C5 (amended) at sample 0. -/
theorem c5_amended_drip_index_witness :
    ((Water.init (13/2) 0 10 0).drip 0).levels.getD 0 0 = 0
    ∧ ((Water.init (13/2) 0 10 0).drip 0).velocities.getD 0 0 = 0 :=
  c5_amended_drip_index.2.2 0 (by norm_num)

/- ### Lengths and pointwise form of `Water.update` -/

theorem VCONV_length : Water.VCONV.length = 5 := rfl

theorem LCONV_length : Water.LCONV.length = 3 := rfl

theorem VCONV_map_length (f : ℝ → ℝ) : (Water.VCONV.map f).length = 5 := rfl

theorem list_eq_of_getD (xs ys : List ℝ) (h : xs.length = ys.length)
    (hg : ∀ i, i < xs.length → xs.getD i 0 = ys.getD i 0) : xs = ys := by
  apply List.ext_getElem h
  intro i h1 h2
  have := hg i h1
  rwa [List.getD_eq_getElem xs 0 h1, List.getD_eq_getElem ys 0 h2] at this

theorem update_velocities_length (w : Water) (dt : ℝ) (n : ℕ)
    (hL : w.levels.length = n) (hV : w.velocities.length = n) (hn : 5 ≤ n) :
    (w.update dt).velocities.length = n := by
  show ((List.zipWith (fun x y => x + y) w.velocities
      (convSame w.levels (Water.VCONV.map (fun c => c * (dt * 60))))).map
      (fun x => x * (1 / 2 : ℝ) ^ dt)).length = n
  rw [List.length_map, List.length_zipWith, convSame_length, VCONV_map_length, hL, hV]
  omega

theorem update_levels_length (w : Water) (dt : ℝ) (n : ℕ)
    (hL : w.levels.length = n) (hV : w.velocities.length = n) (hn : 5 ≤ n) :
    (w.update dt).levels.length = n := by
  show (List.zipWith (fun x y => x + y) (convSame w.levels Water.LCONV)
      (((List.zipWith (fun x y => x + y) w.velocities
        (convSame w.levels (Water.VCONV.map (fun c => c * (dt * 60))))).map
        (fun x => x * (1 / 2 : ℝ) ^ dt)).map (fun x => x * (10 * dt)))).length = n
  rw [List.length_zipWith, convSame_length, LCONV_length, List.length_map,
    List.length_map, List.length_zipWith, convSame_length, VCONV_map_length, hL, hV]
  omega

theorem update_velocities_getD (w : Water) (dt : ℝ) (n : ℕ)
    (hL : w.levels.length = n) (hV : w.velocities.length = n) (hn : 5 ≤ n)
    (i : ℕ) (hi : i < n) :
    (w.update dt).velocities.getD i 0 =
      (w.velocities.getD i 0 +
        (1/20 * padGet w.levels ((i:ℤ) + 2) + 3/10 * padGet w.levels ((i:ℤ) + 1)
         - 4/5 * padGet w.levels (i:ℤ) + 3/10 * padGet w.levels ((i:ℤ) - 1)
         + 1/20 * padGet w.levels ((i:ℤ) - 2)) * (dt * 60)) * (1/2 : ℝ) ^ dt := by
  show ((List.zipWith (fun x y => x + y) w.velocities
      (convSame w.levels (Water.VCONV.map (fun c => c * (dt * 60))))).map
      (fun x => x * (1 / 2 : ℝ) ^ dt)).getD i 0 = _
  rw [getD_map_mul,
    getD_zipWith_add _ _ (by rw [convSame_length, VCONV_map_length, hL, hV]; omega),
    convSame_getD _ _ i (by rw [VCONV_map_length, hL]; omega)]
  unfold convAt
  have hmin : min w.levels.length (Water.VCONV.map (fun c => c * (dt * 60))).length = 5 := by
    rw [VCONV_map_length, hL]; omega
  rw [hmin, VCONV_map_length]
  simp only [show ((5:ℕ) - 1) / 2 = 2 from rfl]
  rw [Finset.sum_range_succ, Finset.sum_range_succ, Finset.sum_range_succ,
    Finset.sum_range_succ, Finset.sum_range_succ, Finset.sum_range_zero]
  simp only [getD_map_mul]
  have h0 : Water.VCONV.getD 0 0 = 1/20 := rfl
  have h1 : Water.VCONV.getD 1 0 = 3/10 := rfl
  have h2 : Water.VCONV.getD 2 0 = -(4/5) := rfl
  have h3 : Water.VCONV.getD 3 0 = 3/10 := rfl
  have h4 : Water.VCONV.getD 4 0 = 1/20 := rfl
  rw [h0, h1, h2, h3, h4]
  push_cast
  ring_nf

theorem update_levels_getD (w : Water) (dt : ℝ) (n : ℕ)
    (hL : w.levels.length = n) (hV : w.velocities.length = n) (hn : 5 ≤ n)
    (i : ℕ) (hi : i < n) :
    (w.update dt).levels.getD i 0 =
      (1/20 * padGet w.levels ((i:ℤ) + 1) + 9/10 * padGet w.levels (i:ℤ)
       + 1/20 * padGet w.levels ((i:ℤ) - 1))
      + (w.update dt).velocities.getD i 0 * (10 * dt) := by
  have hv2 : (w.update dt).velocities.length = n := update_velocities_length w dt n hL hV hn
  show (List.zipWith (fun x y => x + y) (convSame w.levels Water.LCONV)
      ((w.update dt).velocities.map (fun x => x * (10 * dt)))).getD i 0 = _
  rw [getD_zipWith_add _ _
      (by rw [convSame_length, LCONV_length, List.length_map, hL, hv2]; omega),
    getD_map_mul,
    convSame_getD _ _ i (by rw [LCONV_length, hL]; omega)]
  unfold convAt
  have hmin : min w.levels.length Water.LCONV.length = 3 := by
    rw [LCONV_length, hL]; omega
  rw [hmin, LCONV_length]
  simp only [show ((3:ℕ) - 1) / 2 = 1 from rfl]
  rw [Finset.sum_range_succ, Finset.sum_range_succ, Finset.sum_range_succ,
    Finset.sum_range_zero]
  have h0 : Water.LCONV.getD 0 0 = 1/20 := rfl
  have h1 : Water.LCONV.getD 1 0 = 9/10 := rfl
  have h2 : Water.LCONV.getD 2 0 = 1/20 := rfl
  rw [h0, h1, h2]
  push_cast
  ring_nf

theorem convAt_LCONV (a : List ℝ) (h3 : 3 ≤ a.length) (i : ℕ) :
    convAt a Water.LCONV (i : ℤ) =
      1/20 * padGet a ((i:ℤ) + 1) + 9/10 * padGet a (i:ℤ)
        + 1/20 * padGet a ((i:ℤ) - 1) := by
  unfold convAt
  have hmin : min a.length Water.LCONV.length = 3 := by
    rw [LCONV_length]; omega
  rw [hmin, LCONV_length]
  simp only [show ((3:ℕ) - 1) / 2 = 1 from rfl]
  rw [Finset.sum_range_succ, Finset.sum_range_succ, Finset.sum_range_succ,
    Finset.sum_range_zero]
  have h0 : Water.LCONV.getD 0 0 = 1/20 := rfl
  have h1 : Water.LCONV.getD 1 0 = 9/10 := rfl
  have h2 : Water.LCONV.getD 2 0 = 1/20 := rfl
  rw [h0, h1, h2]
  push_cast
  ring_nf

/-- A concrete six-sample flat water state used by witnesses. -/
noncomputable def flat6 : Water := ⟨0, 1, 0, List.replicate 6 0, List.replicate 6 0⟩

/-- C4 (confirmed): for every state with `sampleCount ≥ 5` and every
`dt ≥ 0`, `Water.update` computes exactly
`velocities' = (velocities + convolveSame(heights, VK * (dt*60))) * 0.5^dt`
and `heights' = convolveSame(heights, PK) + velocities' * 10 * dt`, with
`VK = [0.05, 0.3, -0.8, 0.3, 0.05]` and `PK = [0.05, 0.9, 0.05]`, spelled
out here tap by tap with zero padding. -/
theorem c4_update_formula (w : Water) (dt : ℝ) (n : ℕ)
    (hL : w.levels.length = n) (hV : w.velocities.length = n) (hn : 5 ≤ n)
    (hdt : 0 ≤ dt) (i : ℕ) (hi : i < n) :
    (w.update dt).velocities.getD i 0 =
      (w.velocities.getD i 0 +
        (1/20 * padGet w.levels ((i:ℤ) + 2) + 3/10 * padGet w.levels ((i:ℤ) + 1)
         - 4/5 * padGet w.levels (i:ℤ) + 3/10 * padGet w.levels ((i:ℤ) - 1)
         + 1/20 * padGet w.levels ((i:ℤ) - 2)) * (dt * 60)) * (1/2 : ℝ) ^ dt
    ∧ (w.update dt).levels.getD i 0 =
      (1/20 * padGet w.levels ((i:ℤ) + 1) + 9/10 * padGet w.levels (i:ℤ)
       + 1/20 * padGet w.levels ((i:ℤ) - 1))
      + (w.update dt).velocities.getD i 0 * (10 * dt) :=
  ⟨update_velocities_getD w dt n hL hV hn i hi,
   update_levels_getD w dt n hL hV hn i hi⟩

/-- Witness for C4 at the flat six-sample state, `dt = 1`, sample 0. -/
theorem c4_update_formula_witness :
    (flat6.update 1).velocities.getD 0 0 =
      (flat6.velocities.getD 0 0 +
        (1/20 * padGet flat6.levels (((0:ℕ):ℤ) + 2) + 3/10 * padGet flat6.levels (((0:ℕ):ℤ) + 1)
         - 4/5 * padGet flat6.levels ((0:ℕ):ℤ) + 3/10 * padGet flat6.levels (((0:ℕ):ℤ) - 1)
         + 1/20 * padGet flat6.levels (((0:ℕ):ℤ) - 2)) * (1 * 60)) * (1/2 : ℝ) ^ (1:ℝ)
    ∧ (flat6.update 1).levels.getD 0 0 =
      (1/20 * padGet flat6.levels (((0:ℕ):ℤ) + 1) + 9/10 * padGet flat6.levels ((0:ℕ):ℤ)
       + 1/20 * padGet flat6.levels (((0:ℕ):ℤ) - 1))
      + (flat6.update 1).velocities.getD 0 0 * (10 * 1) :=
  c4_update_formula flat6 1 6 rfl rfl (by norm_num) (by norm_num) 0 (by norm_num)

/-- C9 (confirmed): `update 0` is not the identity: it leaves `velocities`
unchanged but replaces `levels` with `convolveSame(levels, LCONV)`, and
there is a state (with non-uniform heights) that it changes. -/
theorem c9_update_zero_dt (w : Water) (n : ℕ)
    (hL : w.levels.length = n) (hV : w.velocities.length = n) (hn : 5 ≤ n) :
    (w.update 0).velocities = w.velocities
    ∧ (w.update 0).levels = convSame w.levels Water.LCONV
    ∧ ∃ g : Water, g.update 0 ≠ g := by
  refine ⟨?_, ?_, ?_⟩
  · apply list_eq_of_getD _ _ (by rw [update_velocities_length w 0 n hL hV hn, hV])
    intro i hi
    rw [update_velocities_length w 0 n hL hV hn] at hi
    rw [update_velocities_getD w 0 n hL hV hn i hi, Real.rpow_zero]
    ring
  · apply list_eq_of_getD _ _
      (by rw [update_levels_length w 0 n hL hV hn, convSame_length, LCONV_length, hL]; omega)
    intro i hi
    rw [update_levels_length w 0 n hL hV hn] at hi
    rw [update_levels_getD w 0 n hL hV hn i hi,
      convSame_getD _ _ i (by rw [LCONV_length, hL]; omega),
      convAt_LCONV w.levels (by omega) i]
    ring
  · refine ⟨⟨0, 1, 0, [1, 0, 0, 0, 0], List.replicate 5 0⟩, ?_⟩
    intro heq
    have h1 := congrArg (fun s : Water => s.levels.getD 0 0) heq
    simp only at h1
    rw [update_levels_getD ⟨0, 1, 0, [1, 0, 0, 0, 0], List.replicate 5 0⟩ 0 5 rfl rfl
      (le_refl 5) 0 (by norm_num)] at h1
    have hp1 : padGet ([1, 0, 0, 0, 0] : List ℝ) (((0:ℕ):ℤ) + 1) = 0 := rfl
    have hp0 : padGet ([1, 0, 0, 0, 0] : List ℝ) ((0:ℕ):ℤ) = 1 := rfl
    have hpm : padGet ([1, 0, 0, 0, 0] : List ℝ) (((0:ℕ):ℤ) - 1) = 0 := by
      apply padGet_neg
      norm_num
    rw [hp1, hp0, hpm] at h1
    have hg : (([1, 0, 0, 0, 0] : List ℝ)).getD 0 0 = 1 := rfl
    rw [hg] at h1
    norm_num at h1

/-- Witness for C9 at the flat six-sample state. -/
theorem c9_update_zero_dt_witness :
    (flat6.update 0).velocities = flat6.velocities
    ∧ (flat6.update 0).levels = convSame flat6.levels Water.LCONV
    ∧ ∃ g : Water, g.update 0 ≠ g :=
  c9_update_zero_dt flat6 6 rfl rfl (by norm_num)

/- ### Structure of `Water.pre_solve` -/

theorem pre_solve_levels_eq (w : Water) (bb : BB) (vx vy dt : ℝ) :
    (w.pre_solve bb vx vy dt).1.levels = w.levels := by
  unfold Water.pre_solve
  cases hf : w.fracImmersed bb with
  | none => simp [hf]
  | some q =>
    simp only [hf]
    split <;> rfl

theorem pre_solve_of_not_lt (w : Water) (bb : BB) (vx vy dt : ℝ)
    (h : ¬ fracLtOne (w.fracImmersed bb)) :
    (w.pre_solve bb vx vy dt).1 = w := by
  unfold Water.pre_solve
  cases hf : w.fracImmersed bb with
  | none => simp [hf]
  | some q =>
    have hq : ¬ q < 1 := by
      rw [hf] at h
      exact h
    simp only [hf]
    rw [if_neg hq]

theorem pre_solve_of_lt (w : Water) (bb : BB) (vx vy dt : ℝ)
    (h : fracLtOne (w.fracImmersed bb)) :
    (w.pre_solve bb vx vy dt).1.velocities =
      (List.range w.velocities.length).map fun i =>
        if pySliceIdx w.velocities.length (w.aIdx bb) ≤ i ∧
            i < pySliceIdx w.velocities.length (w.bIdx bb) then
          w.velocities.getD i 0 * (3 / 5 : ℝ) ^ dt + vy * |vy| * (1/10) * (1 - (3 / 5 : ℝ) ^ dt)
        else w.velocities.getD i 0 := by
  unfold Water.pre_solve
  cases hf : w.fracImmersed bb with
  | none =>
    rw [hf] at h
    exact absurd h not_false
  | some q =>
    have hq : q < 1 := by
      rw [hf] at h
      exact h
    simp only [hf]
    rw [if_pos hq]

theorem pre_solve_velocities_length (w : Water) (bb : BB) (vx vy dt : ℝ) :
    (w.pre_solve bb vx vy dt).1.velocities.length = w.velocities.length := by
  by_cases h : fracLtOne (w.fracImmersed bb)
  · rw [pre_solve_of_lt w bb vx vy dt h, List.length_map, List.length_range]
  · rw [pre_solve_of_not_lt w bb vx vy dt h]

theorem pre_solve_force_eq (w : Water) (bb : BB) (vx vy dt : ℝ) :
    (w.pre_solve bb vx vy dt).2 = Water.force bb vx vy (w.fracImmersed bb) := by
  unfold Water.pre_solve
  cases hf : w.fracImmersed bb with
  | none => simp [hf]
  | some q => simp [hf]

/- ### C6: sample-count formula and length preservation -/

/-- C6 (amended): the field is constructed with
`sampleCount = int(span) * SUBDIV + 1` where `int` truncates toward zero
(Python `int()`, not `round`); `levels` and `velocities` both have that
length at construction, and `update` (on states with at least 5 samples),
`drip` and `pre_solve` preserve both lengths. -/
theorem c6_invariants (surf_y x1 x2 bot_y : ℝ) (h : 0 ≤ x2 - x1) :
    ((Water.init surf_y x1 x2 bot_y).levels.length : ℤ) = Water.size x1 x2
    ∧ (Water.init surf_y x1 x2 bot_y).velocities.length
        = (Water.init surf_y x1 x2 bot_y).levels.length
    ∧ (∀ w : Water, ∀ dt : ℝ, w.levels.length = w.velocities.length →
        5 ≤ w.levels.length →
        (w.update dt).levels.length = w.levels.length
        ∧ (w.update dt).velocities.length = w.velocities.length)
    ∧ (∀ w : Water, ∀ x : ℝ, (w.drip x).levels.length = w.levels.length
        ∧ (w.drip x).velocities.length = w.velocities.length)
    ∧ (∀ w : Water, ∀ bb : BB, ∀ vx vy dt : ℝ,
        (w.pre_solve bb vx vy dt).1.levels.length = w.levels.length
        ∧ (w.pre_solve bb vx vy dt).1.velocities.length = w.velocities.length) := by
  have hs : 0 ≤ Water.size x1 x2 := by
    unfold Water.size pyTrunc Water.SUBDIV
    rw [if_pos h]
    have hf : 0 ≤ ⌊x2 - x1⌋ := Int.floor_nonneg.2 h
    omega
  refine ⟨?_, ?_, ?_, ?_, ?_⟩
  · show ((List.replicate (Water.size x1 x2).toNat (0:ℝ)).length : ℤ) = Water.size x1 x2
    rw [List.length_replicate, Int.toNat_of_nonneg hs]
  · rfl
  · intro w dt hlv h5
    exact ⟨update_levels_length w dt w.levels.length rfl hlv.symm h5,
      by rw [update_velocities_length w dt w.levels.length rfl hlv.symm h5, hlv]⟩
  · intro w x
    exact ⟨List.length_set _ _ _, List.length_set _ _ _⟩
  · intro w bb vx vy dt
    exact ⟨by rw [pre_solve_levels_eq], pre_solve_velocities_length w bb vx vy dt⟩

/-- Witness for C6 at the game's actual water span `[0, 10]`. -/
theorem c6_invariants_witness :
    ((Water.init (13/2) 0 10 0).levels.length : ℤ) = Water.size 0 10
    ∧ (Water.init (13/2) 0 10 0).velocities.length
        = (Water.init (13/2) 0 10 0).levels.length
    ∧ (∀ w : Water, ∀ dt : ℝ, w.levels.length = w.velocities.length →
        5 ≤ w.levels.length →
        (w.update dt).levels.length = w.levels.length
        ∧ (w.update dt).velocities.length = w.velocities.length)
    ∧ (∀ w : Water, ∀ x : ℝ, (w.drip x).levels.length = w.levels.length
        ∧ (w.drip x).velocities.length = w.velocities.length)
    ∧ (∀ w : Water, ∀ bb : BB, ∀ vx vy dt : ℝ,
        (w.pre_solve bb vx vy dt).1.levels.length = w.levels.length
        ∧ (w.pre_solve bb vx vy dt).1.velocities.length = w.velocities.length) :=
  c6_invariants (13/2) 0 10 0 (by norm_num)

/-- C6 counterexample: for span `3/2` the code's sample count is
`int(3/2) * 5 + 1 = 6`, while the claimed formula `round(3/2) * 5 + 1`
gives `11` (Python `round(1.5) = 2`). -/
theorem c6_counterexample :
    (Water.init 0 0 (3/2) 0).levels.length = 6
    ∧ pyRound ((3/2 : ℝ) - 0) * Water.SUBDIV + 1 = 11
    ∧ ((Water.init 0 0 (3/2) 0).levels.length : ℤ)
        ≠ pyRound ((3/2 : ℝ) - 0) * Water.SUBDIV + 1 := by
  have hfloor : ⌊(3/2 : ℝ) - 0⌋ = 1 := by norm_num [Int.floor_eq_iff]
  have htr : pyTrunc ((3/2 : ℝ) - 0) = 1 := by
    unfold pyTrunc
    rw [if_pos (by norm_num), hfloor]
  have hround : pyRound ((3/2 : ℝ) - 0) = 2 := by
    unfold pyRound
    rw [hfloor]
    rw [if_neg (by norm_num), if_neg (by norm_num), if_neg (by decide)]
    decide
  have hlen : (Water.init 0 0 (3/2) 0).levels.length = 6 := by
    show (List.replicate (Water.size 0 (3/2)).toNat (0:ℝ)).length = 6
    rw [List.length_replicate]
    unfold Water.size
    rw [htr]
    rfl
  refine ⟨hlen, ?_, ?_⟩
  · rw [hround]
    rfl
  · rw [hlen, hround]
    decide

/- ### Slice resolution: bounds and evaluation -/

theorem pyRound_intCast (z : ℤ) : pyRound (z : ℝ) = z := by
  unfold pyRound
  rw [Int.floor_intCast, sub_self]
  rw [if_pos (by norm_num)]

theorem pySliceIdx_le (n : ℕ) (i : ℤ) : pySliceIdx n i ≤ n := by
  unfold pySliceIdx
  split
  · omega
  · omega

/-- C2 (amended): `pre_solve` performs no clamping of `[a, b)`; instead the
slice endpoints are resolved by Python's slice semantics (`pySliceIdx`:
negative indices count from the end, then results are clamped into
`[0, n]`).  Every element the slice actually reads lies at an index inside
`[0, n)`, so no out-of-bounds access ever happens — but the resolved range
is not the clamp of `[a, b)` (see the counterexample). -/
theorem c2_slice_access_safe (xs : List ℝ) (a b : ℤ) :
    pySliceIdx xs.length a ≤ xs.length
    ∧ pySliceIdx xs.length b ≤ xs.length
    ∧ (sliceList xs a b).length ≤ xs.length
    ∧ ∀ k, k < (sliceList xs a b).length →
        pySliceIdx xs.length a + k < xs.length
        ∧ (sliceList xs a b).getD k 0 = xs.getD (pySliceIdx xs.length a + k) 0 := by
  refine ⟨pySliceIdx_le _ _, pySliceIdx_le _ _, ?_, ?_⟩
  · unfold sliceList
    rw [List.length_take, List.length_drop]
    omega
  · intro k hk
    unfold sliceList at hk ⊢
    rw [List.length_take, List.length_drop] at hk
    have hk2 : k < pySliceIdx xs.length b - pySliceIdx xs.length a := by omega
    have hk3 : pySliceIdx xs.length a + k < xs.length := by omega
    refine ⟨hk3, ?_⟩
    rw [List.getD_eq_getElem?_getD, List.getElem?_take, if_pos hk2, List.getElem?_drop,
      List.getD_eq_getElem?_getD]

/-- Witness for C2 (amended): a negative start index on a 6-element list. -/
theorem c2_slice_access_safe_witness :
    pySliceIdx (List.replicate 6 (0:ℝ)).length (-5) ≤ (List.replicate 6 (0:ℝ)).length
    ∧ pySliceIdx (List.replicate 6 (0:ℝ)).length 5 ≤ (List.replicate 6 (0:ℝ)).length
    ∧ (sliceList (List.replicate 6 (0:ℝ)) (-5) 5).length ≤ (List.replicate 6 (0:ℝ)).length
    ∧ pySliceIdx (List.replicate 6 (0:ℝ)).length (-5) + 0 < (List.replicate 6 (0:ℝ)).length
    ∧ (sliceList (List.replicate 6 (0:ℝ)) (-5) 5).getD 0 0 =
        (List.replicate 6 (0:ℝ)).getD (pySliceIdx (List.replicate 6 (0:ℝ)).length (-5) + 0) 0 := by
  have h := c2_slice_access_safe (List.replicate 6 (0:ℝ)) (-5) 5
  have hk := h.2.2.2 0 (by
    show 0 < (sliceList (List.replicate 6 (0:ℝ)) (-5) 5).length
    unfold sliceList
    rw [List.length_take, List.length_drop]
    simp only [List.length_replicate]
    decide)
  exact ⟨h.1, h.2.1, h.2.2.1, hk.1, hk.2⟩

theorem fracImmersed_const (w : Water) (bb : BB) (c : ℝ) (n : ℕ) (hn : 0 < n)
    (hlv : w.sampleLevels bb = List.replicate n c) (hne : bb.top ≠ bb.bottom) :
    w.fracImmersed bb = some (clip01 ((c - bb.bottom) / (bb.top - bb.bottom))) := by
  have hsub : submSample c bb.bottom bb.top =
      some (clip01 ((c - bb.bottom) / (bb.top - bb.bottom))) := by
    unfold submSample
    rw [if_neg hne]
  unfold Water.fracImmersed
  rw [hlv, List.map_replicate, hsub]
  rw [if_neg (by
    intro h
    have := List.isEmpty_iff.1 h
    have hlen := congrArg List.length this
    rw [List.length_replicate, List.length_nil] at hlen
    omega)]
  rw [if_neg (by
    intro h
    obtain ⟨o, ho, hno⟩ := List.any_eq_true.1 h
    rw [List.eq_of_mem_replicate ho] at hno
    exact Bool.noConfusion hno)]
  rw [List.map_replicate, Option.getD_some, List.sum_replicate, List.length_replicate,
    nsmul_eq_mul]
  have hne2 : (n : ℝ) ≠ 0 := Nat.cast_ne_zero.2 (by omega)
  rw [mul_comm, mul_div_assoc, div_self hne2, mul_one]

theorem sampleLevels_replicate (w : Water) (bb : BB) (m : ℕ)
    (hrep : w.levels = List.replicate m 0) (s t : ℕ)
    (hs : pySliceIdx m (w.aIdx bb) = s) (ht : pySliceIdx m (w.bIdx bb) = t) :
    w.sampleLevels bb = List.replicate (min (t - s) (m - s)) w.y := by
  unfold Water.sampleLevels sliceList
  rw [hrep, List.length_replicate, hs, ht, List.drop_replicate, List.take_replicate,
    List.map_replicate, zero_add]

theorem aIdx_eval (w : Water) (bb : BB) (z : ℤ) (h : bb.left - w.x1 = (z : ℝ)) :
    w.aIdx bb = z * 5 := by
  unfold Water.aIdx Water.SUBDIV
  rw [h, pyRound_intCast]

theorem bIdx_eval (w : Water) (bb : BB) (z : ℤ) (h : bb.right - w.x1 = (z : ℝ)) :
    w.bIdx bb = z * 5 := by
  unfold Water.bIdx Water.SUBDIV
  rw [h, pyRound_intCast]

/-- The water body actually constructed for span `[0, 4]` (21 samples),
with the game's surface height `6.5`. -/
noncomputable def water21 : Water := Water.init (13/2) 0 4 0

theorem water21_levels : water21.levels = List.replicate 21 0 := by
  show List.replicate (Water.size 0 4).toNat (0:ℝ) = List.replicate 21 0
  have h : (Water.size 0 4).toNat = 21 := by
    unfold Water.size pyTrunc Water.SUBDIV
    rw [if_pos (by norm_num), show ⌊(4:ℝ) - 0⌋ = 4 by norm_num]
    rfl
  rw [h]

/-- A bounding box fully outside the horizontal span `[0, 4]` of
`water21`, lying one to two units to its left. -/
noncomputable def bbOut : BB := ⟨-2, -1, 0, 1⟩

/-- C1 counterexample: a body whose bounding box lies fully outside the
field's horizontal span (`right = -1 < x1 = 0`) for which the computed
submersion fraction is `1`, not `0`: the negative raw indices `a = -10`,
`b = -5` wrap around under Python slice semantics and select five interior
samples whose water level `6.5` is far above the box. -/
theorem c1_counterexample :
    bbOut.right < water21.x1 ∧ water21.fracImmersed bbOut = some 1 := by
  constructor
  · show (-1 : ℝ) < 0
    norm_num
  · have ha : water21.aIdx bbOut = -10 := by
      rw [aIdx_eval water21 bbOut (-2) (by norm_num [water21, Water.init, bbOut])]
      decide
    have hb : water21.bIdx bbOut = -5 := by
      rw [bIdx_eval water21 bbOut (-1) (by norm_num [water21, Water.init, bbOut])]
      decide
    have hlv : water21.sampleLevels bbOut = List.replicate 5 (13/2) := by
      rw [sampleLevels_replicate water21 bbOut 21 water21_levels 11 16
        (by rw [ha]; decide) (by rw [hb]; decide)]
      rfl
    have hne : bbOut.top ≠ bbOut.bottom := by
      show (1 : ℝ) ≠ 0
      norm_num
    rw [fracImmersed_const water21 bbOut (13/2) 5 (by norm_num) hlv hne]
    have : clip01 (((13:ℝ)/2 - bbOut.bottom) / (bbOut.top - bbOut.bottom)) = 1 := by
      show clip01 (((13:ℝ)/2 - 0) / (1 - 0)) = 1
      unfold clip01
      rw [max_eq_left (by norm_num), min_eq_right (by norm_num)]
    rw [this]

/-- C1 (amended): for any state, body and `dt`, when the Python-resolved
sample range is empty (as for bodies far outside the span) no exception is
raised, the submersion fraction is nan (`none`, from `np.mean` of an empty
slice) rather than `0`, the field is left entirely unchanged (so no
NaN/Inf ever enters the field), and the returned force is nan as well. -/
theorem c1_empty_range (w : Water) (bb : BB) (vx vy dt : ℝ)
    (h : pySliceIdx w.levels.length (w.bIdx bb) ≤ pySliceIdx w.levels.length (w.aIdx bb)) :
    w.fracImmersed bb = none
    ∧ (w.pre_solve bb vx vy dt).1 = w
    ∧ (w.pre_solve bb vx vy dt).2 = none := by
  have hsl : sliceList w.levels (w.aIdx bb) (w.bIdx bb) = [] := by
    unfold sliceList
    rw [Nat.sub_eq_zero_of_le h]
    exact List.take_zero _
  have hlv : w.sampleLevels bb = [] := by
    unfold Water.sampleLevels
    rw [hsl]
    rfl
  have hfrac : w.fracImmersed bb = none := by
    unfold Water.fracImmersed
    rw [hlv]
    rfl
  refine ⟨hfrac, ?_, ?_⟩
  · refine pre_solve_of_not_lt w bb vx vy dt ?_
    intro hlt
    rw [hfrac] at hlt
    exact hlt
  · rw [pre_solve_force_eq, hfrac]
    rfl

/-- A bounding box far to the left of `water21`, whose raw indices
`a = -50`, `b = -45` resolve to the empty range `[0, 0)`. -/
noncomputable def bbFar : BB := ⟨-10, -9, 0, 1⟩

/-- Witness for C1 (amended): the empty-range case at `water21`. -/
theorem c1_empty_range_witness :
    water21.fracImmersed bbFar = none
    ∧ (water21.pre_solve bbFar 0 0 1).1 = water21
    ∧ (water21.pre_solve bbFar 0 0 1).2 = none :=
  c1_empty_range water21 bbFar 0 0 1 (by
    have ha : water21.aIdx bbFar = -50 := by
      rw [aIdx_eval water21 bbFar (-10) (by norm_num [water21, Water.init, bbFar])]
      decide
    have hb : water21.bIdx bbFar = -45 := by
      rw [bIdx_eval water21 bbFar (-9) (by norm_num [water21, Water.init, bbFar])]
      decide
    rw [water21_levels, List.length_replicate, ha, hb]
    decide)

/- ### C3: degenerate bounding box -/

/-- C3 (amended): for a degenerate box with `top = bottom` and a nonempty
resolved sample range, the float division by zero raises no error and is
never propagated: each clipped sample evaluates to `1` where the local
water level exceeds `bottom` (`+inf` clipped) and to `0` where it is below
(`-inf` clipped); but where a water level equals `bottom` exactly the
sample is `0/0 = nan`, making the whole fraction nan (`none`) — not the
claimed "1 when level >= bottom". -/
theorem c3_degenerate_box (w : Water) (bb : BB) (hdeg : bb.top = bb.bottom)
    (hne : w.sampleLevels bb ≠ []) :
    ((∀ l ∈ w.sampleLevels bb, bb.bottom < l) → w.fracImmersed bb = some 1)
    ∧ ((∀ l ∈ w.sampleLevels bb, l < bb.bottom) → w.fracImmersed bb = some 0)
    ∧ ((∃ l ∈ w.sampleLevels bb, l = bb.bottom) → w.fracImmersed bb = none) := by
  have hempty : ¬ ((w.sampleLevels bb).isEmpty = true) :=
    fun h => hne (List.isEmpty_iff.1 h)
  have hlen : (w.sampleLevels bb).length ≠ 0 :=
    fun h => hne (List.eq_nil_of_length_eq_zero h)
  refine ⟨?_, ?_, ?_⟩
  · intro hall
    unfold Water.fracImmersed
    rw [if_neg hempty]
    have hmap : (w.sampleLevels bb).map (fun l => submSample l bb.bottom bb.top) =
        (w.sampleLevels bb).map (fun _ => some (1:ℝ)) := by
      apply List.map_congr_left
      intro l hl
      unfold submSample
      rw [if_pos hdeg, if_pos (hall l hl)]
    rw [hmap, List.map_const']
    rw [if_neg (by
      intro h
      obtain ⟨o, ho, hno⟩ := List.any_eq_true.1 h
      rw [List.eq_of_mem_replicate ho] at hno
      exact Bool.noConfusion hno)]
    rw [List.map_replicate, Option.getD_some, List.sum_replicate, nsmul_eq_mul, mul_one]
    rw [div_self (Nat.cast_ne_zero.2 hlen)]
  · intro hall
    unfold Water.fracImmersed
    rw [if_neg hempty]
    have hmap : (w.sampleLevels bb).map (fun l => submSample l bb.bottom bb.top) =
        (w.sampleLevels bb).map (fun _ => some (0:ℝ)) := by
      apply List.map_congr_left
      intro l hl
      unfold submSample
      rw [if_pos hdeg, if_neg (by
          intro hcon
          exact absurd (hall l hl) (not_lt.2 (le_of_lt hcon))),
        if_pos (hall l hl)]
    rw [hmap, List.map_const']
    rw [if_neg (by
      intro h
      obtain ⟨o, ho, hno⟩ := List.any_eq_true.1 h
      rw [List.eq_of_mem_replicate ho] at hno
      exact Bool.noConfusion hno)]
    rw [List.map_replicate, Option.getD_some, List.sum_replicate, smul_zero, zero_div]
  · intro hex
    obtain ⟨l, hl, hlb⟩ := hex
    have hnone : submSample l bb.bottom bb.top = none := by
      unfold submSample
      rw [if_pos hdeg, if_neg (by rw [hlb]; exact lt_irrefl _),
        if_neg (by rw [hlb]; exact lt_irrefl _)]
    unfold Water.fracImmersed
    rw [if_neg hempty]
    rw [if_pos (List.any_eq_true.2 ⟨submSample l bb.bottom bb.top,
      List.mem_map_of_mem (fun x => submSample x bb.bottom bb.top) hl,
      by rw [hnone]; rfl⟩)]

/-- A degenerate bounding box sitting exactly at the water level of
`flat6`. -/
noncomputable def bbDeg : BB := ⟨0, 1, 0, 0⟩

/-- C3 counterexample: a degenerate box (`top = bottom = 0`) whose bottom
coincides exactly with the local water level: the per-sample computation is
`0/0 = nan` and the fraction is nan (`none`), not the defined value `1`
("fully submerged since level >= bottom") the claim requires. -/
theorem c3_counterexample : flat6.fracImmersed bbDeg = none := by
  have ha : flat6.aIdx bbDeg = 0 := by
    rw [aIdx_eval flat6 bbDeg 0 (by norm_num [flat6, bbDeg])]
    decide
  have hb : flat6.bIdx bbDeg = 5 := by
    rw [bIdx_eval flat6 bbDeg 1 (by norm_num [flat6, bbDeg])]
    decide
  have hlv : flat6.sampleLevels bbDeg = List.replicate 5 0 := by
    rw [sampleLevels_replicate flat6 bbDeg 6 rfl 0 5 (by rw [ha]; decide) (by rw [hb]; decide)]
    rfl
  have hsub : submSample (0:ℝ) bbDeg.bottom bbDeg.top = none := by
    show submSample (0:ℝ) 0 0 = none
    unfold submSample
    rw [if_pos rfl, if_neg (lt_irrefl 0), if_neg (lt_irrefl 0)]
  unfold Water.fracImmersed
  rw [hlv, List.map_replicate, hsub]
  rw [if_neg (by
    intro h
    have := List.isEmpty_iff.1 h
    have hlen := congrArg List.length this
    rw [List.length_replicate, List.length_nil] at hlen
    omega)]
  rw [if_pos (by rfl)]

/-- A degenerate bounding box strictly below the water level of `flat6`. -/
noncomputable def bbDeg2 : BB := ⟨0, 1, -1, -1⟩

/-- Witness for C3 (amended): a degenerate box strictly below all local
water levels gives fraction `1`. -/
theorem c3_degenerate_box_witness : flat6.fracImmersed bbDeg2 = some 1 := by
  have ha : flat6.aIdx bbDeg2 = 0 := by
    rw [aIdx_eval flat6 bbDeg2 0 (by norm_num [flat6, bbDeg2])]
    decide
  have hb : flat6.bIdx bbDeg2 = 5 := by
    rw [bIdx_eval flat6 bbDeg2 1 (by norm_num [flat6, bbDeg2])]
    decide
  have hlv : flat6.sampleLevels bbDeg2 = List.replicate 5 0 := by
    rw [sampleLevels_replicate flat6 bbDeg2 6 rfl 0 5 (by rw [ha]; decide) (by rw [hb]; decide)]
    rfl
  refine (c3_degenerate_box flat6 bbDeg2 rfl (by
    rw [hlv]
    intro h
    have hlen := congrArg List.length h
    rw [List.length_replicate, List.length_nil] at hlen
    omega)).1 ?_
  intro l hl
  rw [hlv] at hl
  rw [List.eq_of_mem_replicate hl]
  show (-1 : ℝ) < 0
  norm_num

/- ### C7: side effects of the coupling -/

/-- C7 (confirmed): `pre_solve` never writes `levels`; it leaves the whole
state unchanged exactly when the float test `frac_immersed < 1` fails
(fraction `1`, above, or nan), and when the test holds it rewrites
precisely the resolved index range `[a, b)` of `velocities` with the
exponential blend, leaving every sample outside that range unchanged. -/
theorem c7_coupling_side_effects (w : Water) (bb : BB) (vx vy dt : ℝ) :
    (w.pre_solve bb vx vy dt).1.levels = w.levels
    ∧ (¬ fracLtOne (w.fracImmersed bb) → (w.pre_solve bb vx vy dt).1 = w)
    ∧ (fracLtOne (w.fracImmersed bb) →
        (∀ i, pySliceIdx w.velocities.length (w.aIdx bb) ≤ i →
            i < pySliceIdx w.velocities.length (w.bIdx bb) →
            (w.pre_solve bb vx vy dt).1.velocities.getD i 0 =
              w.velocities.getD i 0 * (3/5 : ℝ) ^ dt
                + vy * |vy| * (1/10) * (1 - (3/5 : ℝ) ^ dt))
        ∧ (∀ i, ¬ (pySliceIdx w.velocities.length (w.aIdx bb) ≤ i ∧
              i < pySliceIdx w.velocities.length (w.bIdx bb)) →
            (w.pre_solve bb vx vy dt).1.velocities.getD i 0 =
              w.velocities.getD i 0)) := by
  refine ⟨pre_solve_levels_eq w bb vx vy dt, pre_solve_of_not_lt w bb vx vy dt, ?_⟩
  intro h
  have hvel := pre_solve_of_lt w bb vx vy dt h
  constructor
  · intro i h1 h2
    have hi : i < w.velocities.length := lt_of_lt_of_le h2 (pySliceIdx_le _ _)
    rw [hvel, getD_range_map _ _ i hi, if_pos ⟨h1, h2⟩]
  · intro i hni
    rcases Nat.lt_or_ge i w.velocities.length with hi | hi
    · rw [hvel, getD_range_map _ _ i hi, if_neg hni]
    · rw [hvel,
        getD_eq_default_of_le _ _ (by rw [List.length_map, List.length_range]; exact hi),
        getD_eq_default_of_le _ _ hi]

/-- A half-submerged bounding box over `flat6` (water level `0` halfway up
the box). -/
noncomputable def bbHalf : BB := ⟨0, 1, -1, 1⟩

theorem flat6_frac_bbHalf : flat6.fracImmersed bbHalf = some (1/2) := by
  have ha : flat6.aIdx bbHalf = 0 := by
    rw [aIdx_eval flat6 bbHalf 0 (by norm_num [flat6, bbHalf])]
    decide
  have hb : flat6.bIdx bbHalf = 5 := by
    rw [bIdx_eval flat6 bbHalf 1 (by norm_num [flat6, bbHalf])]
    decide
  have hlv : flat6.sampleLevels bbHalf = List.replicate 5 0 := by
    rw [sampleLevels_replicate flat6 bbHalf 6 rfl 0 5 (by rw [ha]; decide) (by rw [hb]; decide)]
    rfl
  rw [fracImmersed_const flat6 bbHalf 0 5 (by norm_num) hlv
    (by show (1:ℝ) ≠ -1; norm_num)]
  have hc : clip01 (((0:ℝ) - bbHalf.bottom) / (bbHalf.top - bbHalf.bottom)) = 1/2 := by
    show clip01 (((0:ℝ) - (-1)) / (1 - (-1))) = 1/2
    unfold clip01
    rw [show ((0:ℝ) - (-1)) / (1 - (-1)) = 1/2 by norm_num,
      max_eq_left (by norm_num), min_eq_left (by norm_num)]
  rw [hc]

/-- Witness for C7: a half-submerged body (`fraction = 1/2 < 1`) over the
flat six-sample state, `dt = 1`: sample 1 (inside `[0, 5)`) receives the
blend, sample 5 (outside) is untouched, and `levels` is unchanged. -/
theorem c7_coupling_side_effects_witness :
    (flat6.pre_solve bbHalf 0 2 1).1.levels = flat6.levels
    ∧ (flat6.pre_solve bbHalf 0 2 1).1.velocities.getD 1 0 =
        flat6.velocities.getD 1 0 * (3/5 : ℝ) ^ (1:ℝ)
          + 2 * |(2:ℝ)| * (1/10) * (1 - (3/5 : ℝ) ^ (1:ℝ))
    ∧ (flat6.pre_solve bbHalf 0 2 1).1.velocities.getD 5 0 =
        flat6.velocities.getD 5 0 := by
  have ha : flat6.aIdx bbHalf = 0 := by
    rw [aIdx_eval flat6 bbHalf 0 (by norm_num [flat6, bbHalf])]
    decide
  have hb : flat6.bIdx bbHalf = 5 := by
    rw [bIdx_eval flat6 bbHalf 1 (by norm_num [flat6, bbHalf])]
    decide
  have hfrac : fracLtOne (flat6.fracImmersed bbHalf) := by
    rw [flat6_frac_bbHalf]
    show (1:ℝ)/2 < 1
    norm_num
  have h := c7_coupling_side_effects flat6 bbHalf 0 2 1
  obtain ⟨hin, hout⟩ := h.2.2 hfrac
  refine ⟨h.1, ?_, ?_⟩
  · exact hin 1 (by rw [ha]; decide) (by rw [hb]; decide)
  · refine hout 5 ?_
    rw [ha, hb]
    intro hcon
    obtain ⟨h1, h2⟩ := hcon
    revert h2
    decide

/- ### C2: Python slice resolution versus the spec's clamping -/

/-- Modelled from the spec (§3 coupling invariant): an index "clamped to
`[0, sampleCount)` before any array access". -/
def clampIdx (n : ℕ) (i : ℤ) : ℕ := (min (max i 0) (n : ℤ)).toNat

/-- Modelled from the spec: the per-sample water levels the coupling would
read if the range `[a, b)` were clamped as the spec describes. -/
noncomputable def Water.clampedSampleLevels (w : Water) (bb : BB) : List ℝ :=
  ((w.levels.drop (clampIdx w.levels.length (w.aIdx bb))).take
    (clampIdx w.levels.length (w.bIdx bb) - clampIdx w.levels.length (w.aIdx bb))).map
    (fun h => h + w.y)

/-- Modelled from the spec: the submersion fraction computed over the
clamped range. -/
noncomputable def Water.fracImmersedClamped (w : Water) (bb : BB) : Option ℝ :=
  if (w.clampedSampleLevels bb).isEmpty then none
  else if ((w.clampedSampleLevels bb).map (fun l => submSample l bb.bottom bb.top)).any
      (fun o => o.isNone) then none
  else some ((((w.clampedSampleLevels bb).map (fun l => submSample l bb.bottom bb.top)).map
      (fun o => o.getD 0)).sum / (w.clampedSampleLevels bb).length)

/-- A water state with a disturbed sample 0 (height `10`), used to make the
clamped and wrapped ranges observably different. -/
noncomputable def wBump : Water := ⟨0, 1, 0, [10, 0, 0, 0, 0, 0], List.replicate 6 0⟩

/-- A box overlapping the left edge of `wBump` (raw indices `a = -5`,
`b = 5`). -/
noncomputable def bbEdge : BB := ⟨-1, 1, 1/2, 3/2⟩

/-- C2 counterexample: the coupling does NOT clamp `[a, b)` to
`[0, sampleCount)`.  For `a = -5`, `b = 5` on six samples, Python slice
semantics resolve to `[1, 5)` (the negative start wraps to the end-relative
index `1`), skipping sample 0, while the spec's clamping would give
`[0, 5)` and read sample 0: the computed fractions differ (`0` vs `1/5`). -/
theorem c2_counterexample :
    wBump.fracImmersed bbEdge = some 0
    ∧ wBump.fracImmersedClamped bbEdge = some (1/5)
    ∧ wBump.fracImmersed bbEdge ≠ wBump.fracImmersedClamped bbEdge := by
  have ha : wBump.aIdx bbEdge = -5 := by
    rw [aIdx_eval wBump bbEdge (-1) (by norm_num [wBump, bbEdge])]
    decide
  have hb : wBump.bIdx bbEdge = 5 := by
    rw [bIdx_eval wBump bbEdge 1 (by norm_num [wBump, bbEdge])]
    decide
  have hsub0 : submSample (0:ℝ) bbEdge.bottom bbEdge.top = some 0 := by
    show submSample (0:ℝ) (1/2) (3/2) = some 0
    unfold submSample
    rw [if_neg (by norm_num)]
    have : clip01 (((0:ℝ) - 1/2) / (3/2 - 1/2)) = 0 := by
      unfold clip01
      rw [show (((0:ℝ) - 1/2) / (3/2 - 1/2)) = -(1/2) by norm_num,
        max_eq_right (by norm_num), min_eq_left (by norm_num)]
    rw [this]
  have hsub10 : submSample (10:ℝ) bbEdge.bottom bbEdge.top = some 1 := by
    show submSample (10:ℝ) (1/2) (3/2) = some 1
    unfold submSample
    rw [if_neg (by norm_num)]
    have : clip01 (((10:ℝ) - 1/2) / (3/2 - 1/2)) = 1 := by
      unfold clip01
      rw [show (((10:ℝ) - 1/2) / (3/2 - 1/2)) = 19/2 by norm_num,
        max_eq_left (by norm_num), min_eq_right (by norm_num)]
    rw [this]
  have hsl : wBump.sampleLevels bbEdge = [0, 0, 0, 0] := by
    unfold Water.sampleLevels sliceList
    rw [ha, hb]
    show ((([10, 0, 0, 0, 0, 0] : List ℝ).drop
        (pySliceIdx ([10, 0, 0, 0, 0, 0] : List ℝ).length (-5))).take
        (pySliceIdx ([10, 0, 0, 0, 0, 0] : List ℝ).length 5 -
          pySliceIdx ([10, 0, 0, 0, 0, 0] : List ℝ).length (-5))).map (fun h => h + 0) = _
    norm_num [pySliceIdx]
    rfl
  have hcl : wBump.clampedSampleLevels bbEdge = [10, 0, 0, 0, 0] := by
    unfold Water.clampedSampleLevels
    rw [ha, hb]
    show ((([10, 0, 0, 0, 0, 0] : List ℝ).drop
        (clampIdx ([10, 0, 0, 0, 0, 0] : List ℝ).length (-5))).take
        (clampIdx ([10, 0, 0, 0, 0, 0] : List ℝ).length 5 -
          clampIdx ([10, 0, 0, 0, 0, 0] : List ℝ).length (-5))).map (fun h => h + 0) = _
    norm_num [clampIdx]
    rfl
  have h1 : wBump.fracImmersed bbEdge = some 0 := by
    unfold Water.fracImmersed
    rw [hsl]
    simp only [List.map_cons, List.map_nil, hsub0]
    rw [if_neg (by decide), if_neg (by decide)]
    simp only [Option.getD_some]
    norm_num
  have h2 : wBump.fracImmersedClamped bbEdge = some (1/5) := by
    unfold Water.fracImmersedClamped
    rw [hcl]
    simp only [List.map_cons, List.map_nil, hsub0, hsub10]
    rw [if_neg (by decide), if_neg (by decide)]
    simp only [Option.getD_some]
    norm_num
  refine ⟨h1, h2, ?_⟩
  rw [h1, h2]
  intro hcon
  have := Option.some.inj hcon
  norm_num at this

/- ### C8: symmetry preservation -/

/-- A sample array is symmetric about its centre: the zero-padded read at
`i` equals the read at the mirrored index `length - 1 - i`, for every
integer index. -/
def SymmCentered (xs : List ℝ) : Prop :=
  ∀ i : ℤ, padGet xs i = padGet xs ((xs.length : ℤ) - 1 - i)

theorem padGet_range_map (K : ℕ) (g : ℕ → ℝ) (i : ℤ) :
    padGet ((List.range K).map g) i =
      if 0 ≤ i ∧ i < (K : ℤ) then g i.toNat else 0 := by
  unfold padGet
  split
  · rename_i h0
    rcases Nat.lt_or_ge i.toNat K with hK | hK
    · rw [getD_range_map K g i.toNat hK, if_pos ⟨h0, by omega⟩]
    · rw [getD_eq_default_of_le _ _ (by rw [List.length_map, List.length_range]; exact hK),
        if_neg (by omega)]
  · rename_i h0
    rw [if_neg (by omega)]

theorem padGet_map_mul (xs : List ℝ) (c : ℝ) (i : ℤ) :
    padGet (xs.map (fun x => x * c)) i = padGet xs i * c := by
  unfold padGet
  split
  · exact getD_map_mul xs c i.toNat
  · exact (zero_mul c).symm

theorem padGet_zipWith_add (xs ys : List ℝ) (h : xs.length = ys.length) (i : ℤ) :
    padGet (List.zipWith (fun x y => x + y) xs ys) i = padGet xs i + padGet ys i := by
  unfold padGet
  split
  · exact getD_zipWith_add xs ys h i.toNat
  · exact (add_zero 0).symm

theorem SymmCentered_map_mul (xs : List ℝ) (c : ℝ) (h : SymmCentered xs) :
    SymmCentered (xs.map (fun x => x * c)) := by
  intro i
  rw [List.length_map, padGet_map_mul, padGet_map_mul, h i]

theorem SymmCentered_zipWith_add (xs ys : List ℝ) (h : xs.length = ys.length)
    (hx : SymmCentered xs) (hy : SymmCentered ys) :
    SymmCentered (List.zipWith (fun x y => x + y) xs ys) := by
  intro i
  have hlen : (List.zipWith (fun x y => x + y) xs ys).length = xs.length := by
    rw [List.length_zipWith, h, min_self]
  rw [hlen, padGet_zipWith_add xs ys h, padGet_zipWith_add xs ys h, hx i]
  have hy2 := hy i
  rw [← h] at hy2
  rw [hy2]

theorem convAt_reflect (a v : List ℝ) (r : ℕ) (hr : v.length = 2 * r + 1)
    (hMN : v.length ≤ a.length) (ha : SymmCentered a)
    (hv : ∀ j : ℕ, j < v.length → v.getD j 0 = v.getD (v.length - 1 - j) 0)
    (i : ℤ) : convAt a v ((a.length : ℤ) - 1 - i) = convAt a v i := by
  unfold convAt
  have hmin : min a.length v.length = v.length := min_eq_right hMN
  rw [hmin]
  have hshift : (v.length - 1) / 2 = r := by omega
  rw [hshift]
  have hrefl := Finset.sum_range_reflect
    (fun j : ℕ => v.getD j 0 * padGet a (((a.length : ℤ) - 1 - i) + (r : ℤ) - (j : ℤ)))
    v.length
  rw [← hrefl]
  apply Finset.sum_congr rfl
  intro j hj
  have hj' : j < v.length := Finset.mem_range.1 hj
  have hc : ((v.length - 1 - j : ℕ) : ℤ) = (v.length : ℤ) - 1 - (j : ℤ) := by omega
  rw [← hv j hj', hc]
  have harg : (a.length : ℤ) - 1 - i + (r : ℤ) - ((v.length : ℤ) - 1 - (j : ℤ)) =
      (a.length : ℤ) - 1 - (i + (r : ℤ) - (j : ℤ)) := by omega
  rw [harg, ← ha (i + (r : ℤ) - (j : ℤ))]

theorem convSame_symm (a v : List ℝ) (r : ℕ) (hr : v.length = 2 * r + 1)
    (hMN : v.length ≤ a.length) (ha : SymmCentered a)
    (hv : ∀ j : ℕ, j < v.length → v.getD j 0 = v.getD (v.length - 1 - j) 0) :
    SymmCentered (convSame a v) := by
  intro i
  have hmax : max a.length v.length = a.length := max_eq_left hMN
  have hcs : convSame a v = (List.range a.length).map (fun k : ℕ => convAt a v (k : ℤ)) := by
    unfold convSame
    rw [hmax]
  have hlen : (convSame a v).length = a.length := by
    rw [convSame_length, hmax]
  rw [hlen, hcs, padGet_range_map, padGet_range_map]
  by_cases hi : 0 ≤ i ∧ i < (a.length : ℤ)
  · rw [if_pos hi, if_pos (by omega)]
    have h2 : ((i.toNat : ℕ) : ℤ) = i := Int.toNat_of_nonneg hi.1
    have h1 : ((((a.length : ℤ) - 1 - i).toNat : ℕ) : ℤ) = (a.length : ℤ) - 1 - i :=
      Int.toNat_of_nonneg (by omega)
    rw [h2, h1, convAt_reflect a v r hr hMN ha hv i]
  · rw [if_neg hi, if_neg (by omega)]

theorem VCONV_symm (j : ℕ) (hj : j < Water.VCONV.length) :
    Water.VCONV.getD j 0 = Water.VCONV.getD (Water.VCONV.length - 1 - j) 0 := by
  rw [VCONV_length] at hj ⊢
  interval_cases j <;> rfl

theorem LCONV_symm (j : ℕ) (hj : j < Water.LCONV.length) :
    Water.LCONV.getD j 0 = Water.LCONV.getD (Water.LCONV.length - 1 - j) 0 := by
  rw [LCONV_length] at hj ⊢
  interval_cases j <;> rfl

theorem VCONV_scaled_symm (c : ℝ) (j : ℕ)
    (hj : j < (Water.VCONV.map (fun x => x * c)).length) :
    (Water.VCONV.map (fun x => x * c)).getD j 0 =
      (Water.VCONV.map (fun x => x * c)).getD
        ((Water.VCONV.map (fun x => x * c)).length - 1 - j) 0 := by
  rw [VCONV_map_length] at hj ⊢
  rw [getD_map_mul, getD_map_mul]
  have := VCONV_symm j (by rw [VCONV_length]; exact hj)
  rw [VCONV_length] at this
  rw [this]

theorem update_preserves_symm (w : Water) (n : ℕ) (hL : w.levels.length = n)
    (hV : w.velocities.length = n) (hn : 5 ≤ n)
    (hsl : SymmCentered w.levels) (hsv : SymmCentered w.velocities) (dt : ℝ) :
    (w.update dt).levels.length = n ∧ (w.update dt).velocities.length = n
    ∧ SymmCentered (w.update dt).levels ∧ SymmCentered (w.update dt).velocities := by
  have hconv1 : SymmCentered (convSame w.levels (Water.VCONV.map (fun x => x * (dt * 60)))) :=
    convSame_symm w.levels _ 2 rfl (by rw [VCONV_map_length, hL]; exact hn) hsl
      (VCONV_scaled_symm (dt * 60))
  have hconv1_len : (convSame w.levels (Water.VCONV.map (fun x => x * (dt * 60)))).length = n := by
    rw [convSame_length, VCONV_map_length, hL]
    omega
  have hv1 : SymmCentered (List.zipWith (fun x y => x + y) w.velocities
      (convSame w.levels (Water.VCONV.map (fun x => x * (dt * 60))))) :=
    SymmCentered_zipWith_add _ _ (by rw [hV, hconv1_len]) hsv hconv1
  have hv2 : SymmCentered (w.update dt).velocities := by
    show SymmCentered ((List.zipWith (fun x y => x + y) w.velocities
      (convSame w.levels (Water.VCONV.map (fun c => c * (dt * 60))))).map
      (fun x => x * (1 / 2 : ℝ) ^ dt))
    exact SymmCentered_map_mul _ _ hv1
  have hvlen : (w.update dt).velocities.length = n := update_velocities_length w dt n hL hV hn
  have hllen : (w.update dt).levels.length = n := update_levels_length w dt n hL hV hn
  have hconv2 : SymmCentered (convSame w.levels Water.LCONV) :=
    convSame_symm w.levels _ 1 rfl (by rw [LCONV_length, hL]; omega) hsl LCONV_symm
  have hconv2_len : (convSame w.levels Water.LCONV).length = n := by
    rw [convSame_length, LCONV_length, hL]
    omega
  have hl2 : SymmCentered (w.update dt).levels := by
    show SymmCentered (List.zipWith (fun x y => x + y) (convSame w.levels Water.LCONV)
      ((w.update dt).velocities.map (fun x => x * (10 * dt))))
    exact SymmCentered_zipWith_add _ _ (by rw [hconv2_len, List.length_map, hvlen]) hconv2
      (SymmCentered_map_mul _ _ hv2)
  exact ⟨hllen, hvlen, hl2, hv2⟩

/-- C8 (confirmed): if both `levels` and `velocities` are symmetric about
the centre sample, the state stays symmetric after any sequence of
`update dt` calls — both kernels are palindromic and zero-padded same-mode
convolution commutes with reversal. -/
theorem c8_symmetry (w : Water) (n : ℕ) (hL : w.levels.length = n)
    (hV : w.velocities.length = n) (hn : 5 ≤ n)
    (hsl : SymmCentered w.levels) (hsv : SymmCentered w.velocities) (dts : List ℝ) :
    SymmCentered (dts.foldl Water.update w).levels
    ∧ SymmCentered (dts.foldl Water.update w).velocities := by
  suffices h : (dts.foldl Water.update w).levels.length = n
      ∧ (dts.foldl Water.update w).velocities.length = n
      ∧ SymmCentered (dts.foldl Water.update w).levels
      ∧ SymmCentered (dts.foldl Water.update w).velocities from ⟨h.2.2.1, h.2.2.2⟩
  induction dts generalizing w with
  | nil => exact ⟨hL, hV, hsl, hsv⟩
  | cons d ds ih =>
    simp only [List.foldl_cons]
    obtain ⟨h1, h2, h3, h4⟩ := update_preserves_symm w n hL hV hn hsl hsv d
    exact ih (w.update d) h1 h2 h3 h4

theorem padGet_replicate_zero (n : ℕ) (i : ℤ) :
    padGet (List.replicate n 0) i = 0 := by
  unfold padGet
  split
  · exact getD_zero_replicate n _
  · rfl

theorem symmCentered_replicate_zero (n : ℕ) :
    SymmCentered (List.replicate n 0) := by
  intro i
  rw [padGet_replicate_zero, padGet_replicate_zero]

/-- Witness for C8: one `update (1/60)` step on the flat six-sample state. -/
theorem c8_symmetry_witness :
    SymmCentered (([1/60].foldl Water.update flat6).levels)
    ∧ SymmCentered (([1/60].foldl Water.update flat6).velocities) :=
  c8_symmetry flat6 6 rfl rfl (by norm_num)
    (symmCentered_replicate_zero 6) (symmCentered_replicate_zero 6) [1/60]
